import Mathlib

/-!
Verification of `src/dashboards/booking_service_dashboard.py`, a script that
builds a static Grafana-style monitoring dashboard for the "Booking Service"
as an in-memory tree (rows, panels, query targets) and serializes it to a
JSON document wrapped in an upload envelope.

The data tree is embedded directly from the source literals.  The script's
third-party dependencies (the `grafanalib` library providing the entity
classes, `auto_panel_ids` and the JSON serializer, and Python's `json`
module) are not part of the repository, so their behaviour is modelled from
the specification where noted.
-/

set_option maxRecDepth 10000

namespace BookingDashboard

/-- A query target: one query expression plus a display label
(`Target(expr=..., legendFormat=...)` in the source; every construction in
the source supplies both fields). -/
structure Target where
  expr : String
  legendFormat : String
deriving DecidableEq, Repr

/-- Axis formatting options (`YAxis(format=..., min=..., max=...)`); `min`
and `max` are omitted in most constructions in the source. -/
structure YAxis where
  format : String
  min : Option Int := none
  max : Option Int := none
deriving DecidableEq, Repr

/-- Axes pair `YAxes(left=...)`: the source only ever sets the left axis. -/
structure YAxes where
  left : YAxis
deriving DecidableEq, Repr

/-- The variant-specific part of a panel: the source uses exactly two panel
kinds, `SingleStat` (with `valueName`, `format`, `sparklineShow`) and
`Graph` (with `yAxes`). -/
inductive PanelBody where
  | singleStat (valueName : String) (format : String) (sparklineShow : Bool)
  | graph (yAxes : YAxes)
deriving DecidableEq, Repr

/-- A panel: common attributes shared by both variants in the source
(title, data-source token, ordered targets), the variant body, and the
integer identifier filled in by the `auto_panel_ids` finalization pass
(absent at construction time). -/
structure Panel where
  title : String
  dataSource : String
  targets : List Target
  body : PanelBody
  id : Option Nat := none
deriving DecidableEq, Repr

/-- Constructor mirroring `SingleStat(title=, dataSource=, targets=,
valueName=, format=, sparklineShow=)` as used in the source. -/
def SingleStat (title dataSource : String) (targets : List Target)
    (valueName format : String) (sparklineShow : Bool) : Panel :=
  { title := title, dataSource := dataSource, targets := targets,
    body := .singleStat valueName format sparklineShow }

/-- Constructor mirroring `Graph(title=, dataSource=, targets=, yAxes=)` as
used in the source. -/
def Graph (title dataSource : String) (targets : List Target)
    (yAxes : YAxes) : Panel :=
  { title := title, dataSource := dataSource, targets := targets,
    body := .graph yAxes }

/-- A row: `Row(title=..., panels=[...])`. -/
structure Row where
  title : String
  panels : List Panel
deriving DecidableEq, Repr

/-- A template variable: `Template(name=, label=, type=, query=)`. -/
structure Template where
  name : String
  label : String
  type : String
  query : String
deriving DecidableEq, Repr

/-- Template list `Templating(list=[...])`. -/
structure Templating where
  list : List Template
deriving DecidableEq, Repr

/-- The dashboard root: `Dashboard(title=, description=, tags=, timezone=,
refresh=, templating=, rows=)`. -/
structure Dashboard where
  title : String
  description : String
  tags : List String
  timezone : String
  refresh : String
  templating : Templating
  rows : List Row
deriving DecidableEq, Repr

/-- Modelled from the spec: the format constants imported from the missing
`grafanalib.core` module (`SECONDS_FORMAT`, `SHORT_FORMAT`, `OPS_FORMAT`)
are unit-format strings; their exact values do not affect any claim. -/
def SECONDS_FORMAT : String := "s"

/-- Modelled from the spec: see `SECONDS_FORMAT`. -/
def SHORT_FORMAT : String := "short"

/-- Modelled from the spec: see `SECONDS_FORMAT`. -/
def OPS_FORMAT : String := "ops"

/-- Assign identifiers `base, base+1, ...` to the panels of one row,
returning the relabelled row and the next free identifier. -/
def assignRowIds (base : Nat) (r : Row) : Row × Nat :=
  let rec go (n : Nat) : List Panel → List Panel × Nat
    | [] => ([], n)
    | p :: ps =>
      let (ps', n') := go (n + 1) ps
      ({ p with id := some n } :: ps', n')
  let (ps, n) := go base r.panels
  ({ r with panels := ps }, n)

/-- Assign identifiers across a list of rows, threading the counter in
row-then-panel order. -/
def assignRowsIds (base : Nat) : List Row → List Row × Nat
  | [] => ([], base)
  | r :: rs =>
    let (r', n) := assignRowIds base r
    let (rs', n') := assignRowsIds n rs
    (r' :: rs', n')

/-- Modelled from the spec: `Dashboard.auto_panel_ids` lives in the missing
`grafanalib` library.  Per the spec, the finalization step walks all panels
in row-then-panel order and assigns each a sequential integer identifier
starting from a fixed base, taken to be 1. -/
def Dashboard.auto_panel_ids (d : Dashboard) : Dashboard :=
  { d with rows := (assignRowsIds 1 d.rows).1 }

/-- The builder `create_dashboard`: the literal dashboard tree built by the source
(lines 31–266), finalized by `auto_panel_ids`. -/
def create_dashboard : Dashboard :=
  Dashboard.auto_panel_ids
  { title := "Booking Service Monitoring"
    description := "Comprehensive monitoring dashboard for the Booking Service"
    tags := ["booking-service", "events", "bookings"]
    timezone := "browser"
    refresh := "30s"
    templating := Templating.mk
      [ Template.mk "datasource" "Data Source" "datasource" "prometheus" ]
    rows :=
      [ -- Row 1: Overview Stats
        Row.mk "Overview"
          [ SingleStat "Total Events Created" "$datasource"
              [ Target.mk "sum(booking_service_events_created_total)" "Events" ]
              "current" SHORT_FORMAT true
          , SingleStat "Total Bookings Created" "$datasource"
              [ Target.mk "sum(booking_service_bookings_created_total)" "Bookings" ]
              "current" SHORT_FORMAT true
          , SingleStat "Total Tickets Booked" "$datasource"
              [ Target.mk "sum(booking_service_tickets_booked_total)" "Tickets" ]
              "current" SHORT_FORMAT true
          , SingleStat "Request Rate (req/s)" "$datasource"
              [ Target.mk "rate(booking_service_http_request_duration_seconds_count[5m])" "Rate" ]
              "current" OPS_FORMAT true
          ]
      , -- Row 2: Business Metrics
        Row.mk "Business Metrics"
          [ Graph "Events Created Over Time" "$datasource"
              [ Target.mk "rate(booking_service_events_created_total\x7bstatus=\"success\"\x7d[5m])" "Success"
              , Target.mk "rate(booking_service_events_created_total\x7bstatus=\"error\"\x7d[5m])" "Error"
              ]
              (YAxes.mk (YAxis.mk OPS_FORMAT none none))
          , Graph "Bookings Created Over Time" "$datasource"
              [ Target.mk "rate(booking_service_bookings_created_total\x7bstatus=\"success\"\x7d[5m])" "Success"
              , Target.mk "rate(booking_service_bookings_created_total\x7bstatus=\"error\"\x7d[5m])" "Error"
              ]
              (YAxes.mk (YAxis.mk OPS_FORMAT none none))
          ]
      , -- Row 3: HTTP Performance
        Row.mk "HTTP Performance"
          [ Graph "Request Rate by Endpoint" "$datasource"
              [ Target.mk "rate(booking_service_http_request_duration_seconds_count[5m])" "\x7b\x7bmethod\x7d\x7d \x7b\x7bpath\x7d\x7d" ]
              (YAxes.mk (YAxis.mk OPS_FORMAT none none))
          , Graph "Response Time (p50, p95, p99)" "$datasource"
              [ Target.mk "histogram_quantile(0.50, rate(booking_service_http_request_duration_seconds_bucket[5m]))" "p50"
              , Target.mk "histogram_quantile(0.95, rate(booking_service_http_request_duration_seconds_bucket[5m]))" "p95"
              , Target.mk "histogram_quantile(0.99, rate(booking_service_http_request_duration_seconds_bucket[5m]))" "p99"
              ]
              (YAxes.mk (YAxis.mk SECONDS_FORMAT none none))
          ]
      , -- Row 4: Error Rates
        Row.mk "Error Rates"
          [ Graph "HTTP Error Rate by Status Code" "$datasource"
              [ Target.mk "rate(booking_service_http_request_duration_seconds_count\x7bstatus=~\"4..\"\x7d[5m])" "4xx - \x7b\x7bstatus\x7d\x7d"
              , Target.mk "rate(booking_service_http_request_duration_seconds_count\x7bstatus=~\"5..\"\x7d[5m])" "5xx - \x7b\x7bstatus\x7d\x7d"
              ]
              (YAxes.mk (YAxis.mk OPS_FORMAT none none))
          , Graph "Error Rate Percentage" "$datasource"
              [ Target.mk "rate(booking_service_http_request_duration_seconds_count\x7bstatus=~\"[45]..\"\x7d[5m]) / rate(booking_service_http_request_duration_seconds_count[5m]) * 100" "Error %" ]
              (YAxes.mk (YAxis.mk "percent" (some 0) (some 100)))
          ]
      , -- Row 5: System Metrics
        Row.mk "System Metrics"
          [ Graph "Go Goroutines" "$datasource"
              [ Target.mk "go_goroutines" "Goroutines" ]
              (YAxes.mk (YAxis.mk SHORT_FORMAT none none))
          , Graph "Memory Usage" "$datasource"
              [ Target.mk "go_memstats_alloc_bytes" "Allocated"
              , Target.mk "go_memstats_heap_alloc_bytes" "Heap"
              ]
              (YAxes.mk (YAxis.mk "bytes" none none))
          ]
      ] }

/-- A JSON value, the output format of the serializer. -/
inductive JVal where
  | str (s : String)
  | num (n : Int)
  | bool (b : Bool)
  | null
  | arr (xs : List JVal)
  | obj (ms : List (String × JVal))

/-- JSON string escaping for one character: the serializer escapes the
backslash and the double quote (the document contains no control or
non-ASCII characters). -/
def escChar (c : Char) : List Char :=
  if c = '\\' then ['\\', '\\']
  else if c = '"' then ['\\', '"']
  else [c]

/-- JSON string escaping. -/
def escString : List Char → List Char
  | [] => []
  | c :: cs => escChar c ++ escString cs

/-- Indentation of `n` spaces. -/
def spaces (n : Nat) : List Char := List.replicate n ' '

/-- The character of a decimal digit. -/
def digitChar (d : Nat) : Char := Char.ofNat (48 + d)

/-- Decimal digits of `n`, most significant first; the fuel bounds the
number of digits (`n + 1` always suffices). -/
def natDigitsF : Nat → Nat → List Char
  | 0, _ => []
  | fuel + 1, n =>
    if n < 10 then [digitChar n]
    else natDigitsF fuel (n / 10) ++ [digitChar (n % 10)]

/-- Decimal rendering of an integer, as the serializer prints numbers. -/
def renderInt : Int → List Char
  | .ofNat m => natDigitsF (m + 1) m
  | .negSucc m => '-' :: natDigitsF (m + 2) (m + 1)

mutual

/-- Modelled from the spec: pretty-printing with a fixed indentation of 2
spaces, as `json.dumps(..., indent=2)` of the missing `json` module does:
`ind` is the indentation column of the value's closing bracket, container
items sit at `ind + 2`, members are separated by `",\n"` and keys from
values by `": "`; empty containers print without inner newlines.  The
first argument is recursion fuel (any bound on the call depth suffices;
`renderVal` supplies one). -/
def renderValF : Nat → Nat → JVal → List Char
  | 0, _, _ => []
  | _ + 1, _, .str s => '"' :: (escString s.data ++ ['"'])
  | _ + 1, _, .num n => renderInt n
  | _ + 1, _, .bool true => "true".data
  | _ + 1, _, .bool false => "false".data
  | _ + 1, _, .null => "null".data
  | _ + 1, _, .arr [] => ['[', ']']
  | fuel + 1, ind, .arr (x :: xs) =>
      '[' :: '\n' :: (renderElemsF fuel (ind + 2) x xs ++ '\n' :: (spaces ind ++ [']']))
  | _ + 1, _, .obj [] => ['\x7b', '\x7d']
  | fuel + 1, ind, .obj (m :: ms) =>
      '\x7b' :: '\n' :: (renderMembersF fuel (ind + 2) m ms ++ '\n' :: (spaces ind ++ ['\x7d']))

/-- Render the comma-and-newline separated items of a non-empty array, each
at indentation `ind`. -/
def renderElemsF : Nat → Nat → JVal → List JVal → List Char
  | 0, _, _, _ => []
  | fuel + 1, ind, x, [] => spaces ind ++ renderValF fuel ind x
  | fuel + 1, ind, x, y :: ys =>
      spaces ind ++ (renderValF fuel ind x ++ ',' :: '\n' :: renderElemsF fuel ind y ys)

/-- Render the comma-and-newline separated members of a non-empty object,
each at indentation `ind`. -/
def renderMembersF : Nat → Nat → (String × JVal) → List (String × JVal) → List Char
  | 0, _, _, _ => []
  | fuel + 1, ind, (k, v), [] =>
      spaces ind ++ ('"' :: (escString k.data ++ '"' :: ':' :: ' ' :: renderValF fuel ind v))
  | fuel + 1, ind, (k, v), m :: ms =>
      spaces ind ++
        ('"' :: (escString k.data ++ '"' :: ':' :: ' ' :: renderValF fuel ind v)) ++
        ',' :: '\n' :: renderMembersF fuel ind m ms

end

/-- Fuel bound for rendering; any bound on the depth of the render call
chain suffices, and the chain descends into a strictly smaller value each
step, so no document of practical size comes near this bound.  (CPython
itself bounds this recursion by its recursion limit.) -/
def renderFuel : Nat := 1000000

/-- The 2-space-indentation renderer at indentation `ind`. -/
def renderVal (ind : Nat) (j : JVal) : List Char := renderValF renderFuel ind j

mutual

/-- Predicate `renderOkV fuel j` holds when `fuel` is enough for `renderValF` to
finish rendering `j` without hitting the fuel cutoff. -/
def renderOkV : Nat → JVal → Bool
  | 0, _ => false
  | _ + 1, .str _ => true
  | _ + 1, .num _ => true
  | _ + 1, .bool _ => true
  | _ + 1, .null => true
  | _ + 1, .arr [] => true
  | fuel + 1, .arr (x :: xs) => renderOkE fuel x xs
  | _ + 1, .obj [] => true
  | fuel + 1, .obj (m :: ms) => renderOkM fuel m ms

/-- Fuel adequacy for `renderElemsF`. -/
def renderOkE : Nat → JVal → List JVal → Bool
  | 0, _, _ => false
  | fuel + 1, x, [] => renderOkV fuel x
  | fuel + 1, x, y :: ys => renderOkV fuel x && renderOkE fuel y ys

/-- Fuel adequacy for `renderMembersF`. -/
def renderOkM : Nat → (String × JVal) → List (String × JVal) → Bool
  | 0, _, _ => false
  | fuel + 1, (_, v), [] => renderOkV fuel v
  | fuel + 1, (_, v), m :: ms => renderOkV fuel v && renderOkM fuel m ms

end

/-- Modelled from the spec: the serialized form of a query target. -/
def Target.toJson (t : Target) : JVal :=
  .obj [("expr", .str t.expr), ("legendFormat", .str t.legendFormat)]

/-- Modelled from the spec: the serialized form of an axis, with the
optional bounds present only when set. -/
def YAxis.toJson (a : YAxis) : JVal :=
  .obj ([("format", .str a.format)]
    ++ (match a.min with | some n => [("min", JVal.num n)] | none => [])
    ++ (match a.max with | some n => [("max", JVal.num n)] | none => []))

/-- Modelled from the spec: the serialized form of a panel; field names
follow the target platform's schema, dispatching on the variant kind. -/
def Panel.toJson (p : Panel) : JVal :=
  .obj ([("id", match p.id with | some n => JVal.num n | none => JVal.null),
         ("title", .str p.title),
         ("datasource", .str p.dataSource),
         ("targets", .arr (p.targets.map Target.toJson))]
    ++ (match p.body with
        | .singleStat valueName format sparklineShow =>
            [("type", JVal.str "singlestat"),
             ("valueName", JVal.str valueName),
             ("format", JVal.str format),
             ("sparkline", JVal.obj [("show", JVal.bool sparklineShow)])]
        | .graph yAxes =>
            [("type", JVal.str "graph"),
             ("yaxes", JVal.arr [yAxes.left.toJson])]))

/-- Modelled from the spec: the serialized form of a row. -/
def Row.toJson (r : Row) : JVal :=
  .obj [("title", .str r.title), ("panels", .arr (r.panels.map Panel.toJson))]

/-- Modelled from the spec: the serialized form of a template variable. -/
def Template.toJson (t : Template) : JVal :=
  .obj [("name", .str t.name), ("label", .str t.label),
        ("type", .str t.type), ("query", .str t.query)]

/-- Modelled from the spec: the serialization of the dashboard tree by the
missing `grafanalib` serializer (`_gen_json_from_panels`), a direct
tree-shaped JSON representation of the Dashboard and its descendants. -/
def Dashboard.toJson (d : Dashboard) : JVal :=
  .obj [("title", .str d.title),
        ("description", .str d.description),
        ("tags", .arr (d.tags.map JVal.str)),
        ("timezone", .str d.timezone),
        ("refresh", .str d.refresh),
        ("templating", .obj [("list", .arr (d.templating.list.map Template.toJson))]),
        ("rows", .arr (d.rows.map Row.toJson))]

/-- The upload envelope built at source lines 276–280: exactly the three
fields `dashboard`, `overwrite` (true) and `inputs` (empty list). -/
def dashboard_json : JVal :=
  .obj [("dashboard", create_dashboard.toJson),
        ("overwrite", .bool true),
        ("inputs", .arr [])]

/-- The bytes the program writes to standard output:
`print(json.dumps(dashboard_json, indent=2))`, i.e. the indent-2 rendering
of the envelope followed by the trailing newline added by `print`. -/
def programOutput : List Char := renderVal 0 dashboard_json ++ ['\n']

/-- JSON whitespace. -/
def isWs (c : Char) : Bool := c = ' ' || c = '\n' || c = '\t' || c = '\r'

/-- Drop leading JSON whitespace. -/
def skipWs (cs : List Char) : List Char := cs.dropWhile isWs

/-- Parse the body of a JSON string after the opening quote, undoing the
escapes `escChar` produces: a character after a backslash is taken
literally (`esc` records that the previous character was an unconsumed
backslash); `acc` holds the characters read so far in reverse. -/
def parseStringBody (esc : Bool) (acc : List Char) : List Char → Option (String × List Char)
  | [] => none
  | c :: cs =>
    if esc then parseStringBody false (c :: acc) cs
    else if c = '"' then some (String.mk acc.reverse, cs)
    else if c = '\\' then parseStringBody true acc cs
    else parseStringBody false (c :: acc) cs

/-- Numeric value of a decimal digit character. -/
def digitVal (c : Char) : Nat := c.toNat - 48

/-- Parse a maximal run of decimal digits, accumulating their value. -/
def parseDigits (acc : Nat) : List Char → Nat × List Char
  | [] => (acc, [])
  | c :: cs =>
    if c.isDigit then parseDigits (acc * 10 + digitVal c) cs else (acc, c :: cs)

mutual

/-- Modelled from the spec: a JSON parser (the missing `json` module's
`json.loads`), fuelled by the nesting depth; returns the parsed value and
the unconsumed rest of the input. -/
def parseVal : Nat → List Char → Option (JVal × List Char)
  | 0, _ => none
  | fuel + 1, cs =>
    match skipWs cs with
    | [] => none
    | c :: cs1 =>
      if c = '"' then
        (parseStringBody false [] cs1).map (fun sr => (.str sr.1, sr.2))
      else if c = '\x7b' then
        let r := skipWs cs1
        if r.head? = some '\x7d' then some (.obj [], r.tail)
        else (parseMembers fuel r).map (fun mr => (.obj mr.1, mr.2))
      else if c = '[' then
        let r := skipWs cs1
        if r.head? = some ']' then some (.arr [], r.tail)
        else (parseElems fuel r).map (fun xr => (.arr xr.1, xr.2))
      else if c = 't' then
        if cs1.take 3 = ['r', 'u', 'e'] then some (.bool true, cs1.drop 3) else none
      else if c = 'f' then
        if cs1.take 4 = ['a', 'l', 's', 'e'] then some (.bool false, cs1.drop 4) else none
      else if c = 'n' then
        if cs1.take 3 = ['u', 'l', 'l'] then some (.null, cs1.drop 3) else none
      else if c = '-' then
        match cs1 with
        | d :: _ =>
          if d.isDigit then
            let nr := parseDigits 0 cs1
            some (.num (-(nr.1 : Int)), nr.2)
          else none
        | [] => none
      else if c.isDigit then
        let nr := parseDigits (digitVal c) cs1
        some (.num (nr.1 : Int), nr.2)
      else none

/-- Parse the members of a non-empty JSON object, up to and including the
closing brace. -/
def parseMembers : Nat → List Char → Option (List (String × JVal) × List Char)
  | 0, _ => none
  | fuel + 1, cs =>
    let c0 := skipWs cs
    if c0.head? = some '"' then
      (parseStringBody false [] c0.tail).bind (fun kr =>
        let r1' := skipWs kr.2
        if r1'.head? = some ':' then
          (parseVal fuel r1'.tail).bind (fun vr =>
            let r3' := skipWs vr.2
            if r3'.head? = some ',' then
              (parseMembers fuel r3'.tail).map
                (fun mr => ((kr.1, vr.1) :: mr.1, mr.2))
            else if r3'.head? = some '\x7d' then some ([(kr.1, vr.1)], r3'.tail)
            else none)
        else none)
    else none

/-- Parse the elements of a non-empty JSON array, up to and including the
closing square bracket. -/
def parseElems : Nat → List Char → Option (List JVal × List Char)
  | 0, _ => none
  | fuel + 1, cs =>
    (parseVal fuel cs).bind (fun xr =>
      let r1' := skipWs xr.2
      if r1'.head? = some ',' then
        (parseElems fuel r1'.tail).map (fun er => (xr.1 :: er.1, er.2))
      else if r1'.head? = some ']' then some ([xr.1], r1'.tail)
      else none)

end

/-- Modelled from the spec: `json.loads` on a whole document — parse one
JSON value and require that only whitespace follows it.  The parser's fuel
bounds its recursion depth, as CPython's recursion limit does for
`json.loads`. -/
def parseJson (cs : List Char) : Option JVal :=
  match parseVal renderFuel cs with
  | some (j, rest) => if skipWs rest = [] then some j else none
  | none => none

/-- The member names of a JSON object (empty for other values). -/
def jKeys : JVal → List String
  | .obj ms => ms.map Prod.fst
  | _ => []

/-- Look up a member of a JSON object by name. -/
def jGet (j : JVal) (k : String) : Option JVal :=
  match j with
  | .obj ms => (ms.find? (fun m => m.1 == k)).map Prod.snd
  | _ => none

/-- The elements of a JSON array, when the value is one. -/
def jArr : Option JVal → Option (List JVal)
  | some (.arr xs) => some xs
  | _ => none

/-- Two-level member lookup. -/
def jGet2 (j : JVal) (k1 k2 : String) : Option JVal :=
  (jGet j k1).bind (fun x => jGet x k2)

/-- Holds when the input does not begin with a decimal digit, so that a
greedy digit run just before it ends exactly there. -/
def notDigitStart : List Char → Bool
  | [] => true
  | c :: _ => !c.isDigit

/-- All panels of a dashboard in row-then-panel order. -/
def allPanels (d : Dashboard) : List Panel :=
  d.rows.foldr (fun r acc => r.panels ++ acc) []

/-- All targets of a dashboard in row-then-panel-then-target order. -/
def allTargets (d : Dashboard) : List Target :=
  (allPanels d).foldr (fun p acc => p.targets ++ acc) []

/-- A Python value as handed to `json.dumps`: the JSON-representable
shapes, plus the unrepresentable ones the spec's error conditions name —
non-finite floats and objects of kinds the serializer does not recognize
(such as an unrecognized panel variant). -/
inductive PyVal where
  | str (s : String)
  | int (n : Int)
  | bool (b : Bool)
  | none
  | nonFiniteFloat
  | unknownObject (kind : String)
  | list (xs : List PyVal)
  | dict (ms : List (String × PyVal))

mutual

/-- Modelled from the spec: serialization of a Python value, failing
(returning `Option.none`) when the tree holds a value that is not
representable in the output format.  Fuelled like the renderer. -/
def pyToJsonF : Nat → PyVal → Option JVal
  | 0, _ => Option.none
  | _ + 1, .str s => some (.str s)
  | _ + 1, .int n => some (.num n)
  | _ + 1, .bool b => some (.bool b)
  | _ + 1, .none => some .null
  | _ + 1, .nonFiniteFloat => Option.none
  | _ + 1, .unknownObject _ => Option.none
  | fuel + 1, .list xs => (pyListToJsonF fuel xs).map JVal.arr
  | fuel + 1, .dict ms => (pyDictToJsonF fuel ms).map JVal.obj

/-- Serialize each element of a Python list. -/
def pyListToJsonF : Nat → List PyVal → Option (List JVal)
  | 0, _ => Option.none
  | _ + 1, [] => some []
  | fuel + 1, x :: xs =>
    match pyToJsonF fuel x, pyListToJsonF fuel xs with
    | some j, some js => some (j :: js)
    | _, _ => Option.none

/-- Serialize each member of a Python dict. -/
def pyDictToJsonF : Nat → List (String × PyVal) → Option (List (String × JVal))
  | 0, _ => Option.none
  | _ + 1, [] => some []
  | fuel + 1, (k, v) :: ms =>
    match pyToJsonF fuel v, pyDictToJsonF fuel ms with
    | some j, some js => some ((k, j) :: js)
    | _, _ => Option.none

end

/-- Serialization `pyToJsonF` at the fixed fuel bound. -/
def pyToJson (v : PyVal) : Option JVal := pyToJsonF renderFuel v

mutual

/-- The injection of a JSON value into Python values (every JSON value is
a representable Python value).  Fuelled like the renderer. -/
def jvalToPyF : Nat → JVal → PyVal
  | 0, _ => .none
  | _ + 1, .str s => .str s
  | _ + 1, .num n => .int n
  | _ + 1, .bool b => .bool b
  | _ + 1, .null => .none
  | fuel + 1, .arr xs => .list (jListToPyF fuel xs)
  | fuel + 1, .obj ms => .dict (jMembersToPyF fuel ms)

/-- Inject each element of a JSON array. -/
def jListToPyF : Nat → List JVal → List PyVal
  | 0, _ => []
  | _ + 1, [] => []
  | fuel + 1, x :: xs => jvalToPyF fuel x :: jListToPyF fuel xs

/-- Inject each member of a JSON object. -/
def jMembersToPyF : Nat → List (String × JVal) → List (String × PyVal)
  | 0, _ => []
  | _ + 1, [] => []
  | fuel + 1, (k, v) :: ms => (k, jvalToPyF fuel v) :: jMembersToPyF fuel ms

end

/-- Injection `jvalToPyF` at the fixed fuel bound. -/
def jvalToPy (j : JVal) : PyVal := jvalToPyF renderFuel j

/-- The Python value serialized by the script: the envelope dict of source
lines 276–280 as `json.dumps` receives it. -/
def dashboard_json_py : PyVal := jvalToPy dashboard_json

/-- Modelled from the spec: `json.dumps(..., indent=2)` — serialize the
Python value, failing on unrepresentable values, otherwise pretty-printing
with 2-space indentation. -/
def dumps (v : PyVal) : Option (List Char) := (pyToJson v).map (renderVal 0)

/-- The observable outcome of one process run: exit code and the bytes
written to standard output. -/
structure Outcome where
  exitCode : Nat
  stdout : List Char
deriving DecidableEq

/-- Modelled from the spec: the `__main__` block — serialize the envelope
and print it followed by a newline; a serialization failure is an uncaught
exception, so the process exits nonzero having written nothing, and on
success the process exits 0. -/
def runWith (v : PyVal) : Outcome :=
  match dumps v with
  | Option.none => ⟨1, []⟩
  | some s => ⟨0, s ++ ['\n']⟩

/-- The environmental inputs a process run could conceivably observe:
a wall-clock reading, a randomness seed, and the process environment. -/
structure Env where
  wallClock : Nat
  randSeed : Nat
  envVars : List (String × String)

/-- One invocation of the program under environment `e`: the script reads
none of it — the outcome is a pure function of the literal configuration. -/
def runProgram (_ : Env) : Outcome := runWith dashboard_json_py

/-! ### Round-trip correctness of the renderer and parser -/

theorem skipWs_cons_of_ws (c : Char) (l : List Char) (h : isWs c = true) :
    skipWs (c :: l) = skipWs l := by
  simp [skipWs, List.dropWhile_cons, h]

theorem skipWs_cons_of_not_ws (c : Char) (l : List Char) (h : isWs c = false) :
    skipWs (c :: l) = c :: l := by
  simp [skipWs, List.dropWhile_cons, h]

theorem skipWs_spaces (n : Nat) (l : List Char) :
    skipWs (spaces n ++ l) = skipWs l := by
  induction n with
  | zero => simp [spaces]
  | succ k ih =>
    simpa [spaces, List.replicate_succ,
      skipWs_cons_of_ws ' ' (spaces k ++ l) rfl] using ih

theorem String_mk_data (s : String) : String.mk s.data = s := rfl

theorem psb_backslash (acc X : List Char) :
    parseStringBody false acc ('\\' :: X) = parseStringBody true acc X := rfl

theorem psb_escaped (acc : List Char) (c : Char) (X : List Char) :
    parseStringBody true acc (c :: X) = parseStringBody false (c :: acc) X := rfl

theorem psb_quote (acc X : List Char) :
    parseStringBody false acc ('"' :: X) = some (String.mk acc.reverse, X) := rfl

theorem psb_other (acc : List Char) (c : Char) (X : List Char)
    (h1 : ¬c = '"') (h2 : ¬c = '\\') :
    parseStringBody false acc (c :: X) = parseStringBody false (c :: acc) X := by
  simp [parseStringBody, h1, h2]

/-- Parsing the escaped form of `s` up to its closing quote recovers `s`. -/
theorem parseStringBody_escString (s acc rest : List Char) :
    parseStringBody false acc (escString s ++ '"' :: rest) =
      some (String.mk (acc.reverse ++ s), rest) := by
  induction s generalizing acc with
  | nil => simp [escString, psb_quote]
  | cons c cs ih =>
    by_cases h2 : c = '\\'
    · subst h2
      rw [show escString ('\\' :: cs) = '\\' :: '\\' :: escString cs by
            simp [escString, escChar]]
      simp only [List.cons_append, psb_backslash, psb_escaped, ih]
      simp
    · by_cases h1 : c = '"'
      · subst h1
        rw [show escString ('"' :: cs) = '\\' :: '"' :: escString cs by
              simp [escString, escChar]]
        simp only [List.cons_append, psb_backslash, psb_escaped, ih]
        simp
      · rw [show escString (c :: cs) = c :: escString cs by
              simp [escString, escChar, h1, h2]]
        rw [List.cons_append, psb_other _ _ _ h1 h2, ih]
        simp

theorem digitVal_digitChar (d : Nat) (h : d < 10) : digitVal (digitChar d) = d := by
  interval_cases d <;> rfl

theorem digitChar_isDigit (d : Nat) (h : d < 10) : (digitChar d).isDigit = true := by
  interval_cases d <;> rfl

theorem natDigitsF_digits (fuel : Nat) : ∀ n, ∀ c ∈ natDigitsF fuel n, c.isDigit = true := by
  induction fuel with
  | zero => intro n c hc; simp [natDigitsF] at hc
  | succ f ih =>
    intro n c hc
    by_cases h : n < 10
    · simp [natDigitsF, h] at hc
      subst hc; exact digitChar_isDigit n h
    · simp [natDigitsF, h] at hc
      rcases hc with hc | hc
      · exact ih _ _ hc
      · subst hc; exact digitChar_isDigit _ (Nat.mod_lt _ (by omega))

theorem natDigitsF_head (fuel : Nat) : ∀ n, 1 ≤ fuel → n < 10 ^ fuel →
    ∃ d tail, natDigitsF fuel n = digitChar d :: tail ∧ d < 10 := by
  induction fuel with
  | zero => omega
  | succ f ih =>
    intro n _ hn
    by_cases h : n < 10
    · exact ⟨n, [], by simp [natDigitsF, h], h⟩
    · have hf' : 1 ≤ f := by
        rcases Nat.eq_zero_or_pos f with rfl | hp
        · simp at hn; omega
        · exact hp
      have hn' : n / 10 < 10 ^ f := by
        rw [Nat.div_lt_iff_lt_mul (by norm_num)]
        calc n < 10 ^ (f + 1) := hn
          _ = 10 ^ f * 10 := by ring
      obtain ⟨d, tail, heq, hd⟩ := ih (n / 10) hf' hn'
      exact ⟨d, tail ++ [digitChar (n % 10)], by simp [natDigitsF, h, heq], hd⟩

theorem natDigitsF_foldl (fuel : Nat) : ∀ n acc, n < 10 ^ fuel →
    (natDigitsF fuel n).foldl (fun a c => a * 10 + digitVal c) acc =
      acc * 10 ^ (natDigitsF fuel n).length + n := by
  induction fuel with
  | zero =>
    intro n acc h
    simp only [pow_zero, Nat.lt_one_iff] at h
    subst h
    simp [natDigitsF]
  | succ f ih =>
    intro n acc h
    by_cases hlt : n < 10
    · simp [natDigitsF, hlt, digitVal_digitChar n hlt]
    · have hn' : n / 10 < 10 ^ f := by
        rw [Nat.div_lt_iff_lt_mul (by norm_num)]
        calc n < 10 ^ (f + 1) := h
          _ = 10 ^ f * 10 := by ring
      rw [show natDigitsF (f + 1) n = natDigitsF f (n / 10) ++ [digitChar (n % 10)] from by
            simp [natDigitsF, hlt]]
      rw [List.foldl_append, ih (n / 10) acc hn']
      simp only [List.foldl_cons, List.foldl_nil, List.length_append, List.length_cons,
        List.length_nil, digitVal_digitChar _ (Nat.mod_lt _ (by omega : (0:Nat) < 10))]
      rw [pow_succ, ← mul_assoc]
      have hdm := Nat.div_add_mod n 10
      omega

theorem parseDigits_cons_digit (acc : Nat) (c : Char) (cs : List Char)
    (h : c.isDigit = true) :
    parseDigits acc (c :: cs) = parseDigits (acc * 10 + digitVal c) cs := by
  simp [parseDigits, h]

theorem parseDigits_stop (acc : Nat) (rest : List Char) (h : notDigitStart rest = true) :
    parseDigits acc rest = (acc, rest) := by
  cases rest with
  | nil => rfl
  | cons c cs =>
    have hc : c.isDigit = false := by simpa [notDigitStart] using h
    simp [parseDigits, hc]

theorem parseDigits_run (ds : List Char) : ∀ acc rest,
    (∀ c ∈ ds, c.isDigit = true) → notDigitStart rest = true →
    parseDigits acc (ds ++ rest) =
      (ds.foldl (fun a c => a * 10 + digitVal c) acc, rest) := by
  induction ds with
  | nil => intro acc rest _ hr; simpa using parseDigits_stop acc rest hr
  | cons c cs ih =>
    intro acc rest hd hr
    rw [List.cons_append, parseDigits_cons_digit _ _ _ (hd c (by simp)),
      ih _ rest (fun x hx => hd x (by simp [hx])) hr]
    simp

theorem parseVal_digitChar (pf d : Nat) (cs : List Char) (h : d < 10) :
    parseVal (pf + 1) (digitChar d :: cs) =
      some (.num ((parseDigits (digitVal (digitChar d)) cs).1 : Int),
            (parseDigits (digitVal (digitChar d)) cs).2) := by
  interval_cases d <;> rfl

theorem parseVal_minus_digitChar (pf d : Nat) (cs : List Char) (h : d < 10) :
    parseVal (pf + 1) ('-' :: digitChar d :: cs) =
      some (.num (-((parseDigits 0 (digitChar d :: cs)).1 : Int)),
            (parseDigits 0 (digitChar d :: cs)).2) := by
  interval_cases d <;> rfl

theorem parseDigits_natDigitsF (fuel n : Nat) (rest : List Char)
    (hn : n < 10 ^ fuel) (hrest : notDigitStart rest = true) :
    parseDigits 0 (natDigitsF fuel n ++ rest) = (n, rest) := by
  rw [parseDigits_run _ 0 rest (natDigitsF_digits fuel n) hrest,
    natDigitsF_foldl fuel n 0 hn]
  simp

theorem parseVal_renderInt (pf : Nat) (i : Int) (rest : List Char)
    (hrest : notDigitStart rest = true) :
    parseVal (pf + 1) (renderInt i ++ rest) = some (.num i, rest) := by
  cases i with
  | ofNat m =>
    have hm : m < 10 ^ (m + 1) := by
      calc m < 2 ^ m := Nat.lt_two_pow m
        _ ≤ 10 ^ m := Nat.pow_le_pow_left (by norm_num) m
        _ ≤ 10 ^ (m + 1) := Nat.pow_le_pow_right (by norm_num) (by omega)
    obtain ⟨d, tail, heq, hd⟩ := natDigitsF_head (m + 1) m (by omega) hm
    have hdig := parseDigits_natDigitsF (m + 1) m rest hm hrest
    rw [heq, List.cons_append] at hdig
    rw [parseDigits_cons_digit 0 _ _ (digitChar_isDigit d hd)] at hdig
    simp only [Nat.zero_mul, Nat.zero_add] at hdig
    rw [show renderInt (Int.ofNat m) = natDigitsF (m + 1) m from rfl, heq,
      List.cons_append, parseVal_digitChar pf d _ hd, hdig]
    rfl
  | negSucc m =>
    have hm : m + 1 < 10 ^ (m + 2) := by
      calc m + 1 < 2 ^ (m + 1) := Nat.lt_two_pow (m + 1)
        _ ≤ 10 ^ (m + 1) := Nat.pow_le_pow_left (by norm_num) (m + 1)
        _ ≤ 10 ^ (m + 2) := Nat.pow_le_pow_right (by norm_num) (by omega)
    obtain ⟨d, tail, heq, hd⟩ := natDigitsF_head (m + 2) (m + 1) (by omega) hm
    have hdig := parseDigits_natDigitsF (m + 2) (m + 1) rest hm hrest
    rw [heq] at hdig
    rw [show renderInt (Int.negSucc m) = '-' :: natDigitsF (m + 2) (m + 1) from rfl,
      heq, List.cons_append, List.cons_append,
      parseVal_minus_digitChar pf d _ hd]
    rw [List.cons_append] at hdig
    rw [hdig]
    simp [Int.negSucc_eq]

theorem parseVal_quote (pf : Nat) (cs : List Char) :
    parseVal (pf + 1) ('"' :: cs) =
      (parseStringBody false [] cs).map (fun sr => (JVal.str sr.1, sr.2)) := rfl

theorem parseVal_true_lit (pf : Nat) (cs : List Char) :
    parseVal (pf + 1) ('t' :: 'r' :: 'u' :: 'e' :: cs) = some (.bool true, cs) := rfl

theorem parseVal_false_lit (pf : Nat) (cs : List Char) :
    parseVal (pf + 1) ('f' :: 'a' :: 'l' :: 's' :: 'e' :: cs) = some (.bool false, cs) := rfl

theorem parseVal_null_lit (pf : Nat) (cs : List Char) :
    parseVal (pf + 1) ('n' :: 'u' :: 'l' :: 'l' :: cs) = some (.null, cs) := rfl

theorem parseVal_lbrack (pf : Nat) (cs : List Char) :
    parseVal (pf + 1) ('[' :: cs) =
      (if (skipWs cs).head? = some ']' then some (.arr [], (skipWs cs).tail)
       else (parseElems pf (skipWs cs)).map (fun xr => (.arr xr.1, xr.2))) := rfl

theorem parseVal_lbrace (pf : Nat) (cs : List Char) :
    parseVal (pf + 1) ('\x7b' :: cs) =
      (if (skipWs cs).head? = some '\x7d' then some (.obj [], (skipWs cs).tail)
       else (parseMembers pf (skipWs cs)).map (fun mr => (.obj mr.1, mr.2))) := rfl

theorem parseVal_ws_cons (f : Nat) (c : Char) (cs : List Char) (h : isWs c = true) :
    parseVal f (c :: cs) = parseVal f cs := by
  cases f with
  | zero => rfl
  | succ pf =>
    simp only [parseVal]
    rw [skipWs_cons_of_ws c cs h]

theorem parseVal_spaces (f n : Nat) (cs : List Char) :
    parseVal f (spaces n ++ cs) = parseVal f cs := by
  induction n with
  | zero => simp [spaces]
  | succ k ih =>
    rw [show spaces (k + 1) ++ cs = ' ' :: (spaces k ++ cs) from by
          simp [spaces, List.replicate_succ]]
    rw [parseVal_ws_cons f ' ' _ rfl, ih]

theorem parseMembers_ws_cons (f : Nat) (c : Char) (cs : List Char) (h : isWs c = true) :
    parseMembers f (c :: cs) = parseMembers f cs := by
  cases f with
  | zero => rfl
  | succ pf =>
    simp only [parseMembers]
    rw [skipWs_cons_of_ws c cs h]

theorem parseMembers_spaces (f n : Nat) (cs : List Char) :
    parseMembers f (spaces n ++ cs) = parseMembers f cs := by
  induction n with
  | zero => simp [spaces]
  | succ k ih =>
    rw [show spaces (k + 1) ++ cs = ' ' :: (spaces k ++ cs) from by
          simp [spaces, List.replicate_succ]]
    rw [parseMembers_ws_cons f ' ' _ rfl, ih]

theorem parseElems_ws_cons (f : Nat) (c : Char) (cs : List Char) (h : isWs c = true) :
    parseElems f (c :: cs) = parseElems f cs := by
  cases f with
  | zero => rfl
  | succ pf =>
    simp only [parseElems]
    rw [parseVal_ws_cons pf c cs h]

theorem parseElems_spaces (f n : Nat) (cs : List Char) :
    parseElems f (spaces n ++ cs) = parseElems f cs := by
  induction n with
  | zero => simp [spaces]
  | succ k ih =>
    rw [show spaces (k + 1) ++ cs = ' ' :: (spaces k ++ cs) from by
          simp [spaces, List.replicate_succ]]
    rw [parseElems_ws_cons f ' ' _ rfl, ih]

theorem lt_pow10 (n : Nat) : n < 10 ^ (n + 1) := by
  calc n < 2 ^ n := Nat.lt_two_pow n
    _ ≤ 10 ^ n := Nat.pow_le_pow_left (by norm_num) n
    _ ≤ 10 ^ (n + 1) := Nat.pow_le_pow_right (by norm_num) (by omega)

theorem digitChar_not_special (d : Nat) (h : d < 10) :
    isWs (digitChar d) = false ∧ digitChar d ≠ ']' ∧ digitChar d ≠ '\x7d' := by
  interval_cases d <;> exact ⟨rfl, by decide, by decide⟩

/-- A rendered value begins with a non-whitespace character that is not a
closing bracket. -/
theorem renderValF_shape (f ind : Nat) (j : JVal) (h : renderOkV f j = true) :
    ∃ c tail, renderValF f ind j = c :: tail ∧
      isWs c = false ∧ c ≠ ']' ∧ c ≠ '\x7d' := by
  cases f with
  | zero => simp [renderOkV] at h
  | succ f' =>
    cases j with
    | str s => exact ⟨'"', _, rfl, rfl, by decide, by decide⟩
    | num n =>
      cases n with
      | ofNat m =>
        obtain ⟨d, tail, heq, hd⟩ :=
          natDigitsF_head (m + 1) m (by omega) (lt_pow10 m)
        obtain ⟨h1, h2, h3⟩ := digitChar_not_special d hd
        exact ⟨digitChar d, tail, by simp [renderValF, renderInt, heq], h1, h2, h3⟩
      | negSucc m =>
        exact ⟨'-', natDigitsF (m + 2) (m + 1), by simp [renderValF, renderInt],
          rfl, by decide, by decide⟩
    | bool b =>
      cases b with
      | true => exact ⟨'t', _, rfl, rfl, by decide, by decide⟩
      | false => exact ⟨'f', _, rfl, rfl, by decide, by decide⟩
    | null => exact ⟨'n', _, rfl, rfl, by decide, by decide⟩
    | arr xs =>
      cases xs with
      | nil => exact ⟨'[', _, rfl, rfl, by decide, by decide⟩
      | cons x xs' => exact ⟨'[', _, rfl, rfl, by decide, by decide⟩
    | obj ms =>
      cases ms with
      | nil => exact ⟨'\x7b', _, rfl, rfl, by decide, by decide⟩
      | cons m ms' => exact ⟨'\x7b', _, rfl, rfl, by decide, by decide⟩

/-- A rendered member list begins with its indentation and an opening
quote. -/
theorem renderMembersF_shape (f ind : Nat) (m : String × JVal)
    (ms : List (String × JVal)) (h : renderOkM f m ms = true) :
    ∃ tail, renderMembersF f ind m ms = spaces ind ++ '"' :: tail := by
  cases f with
  | zero => simp [renderOkM] at h
  | succ f' =>
    obtain ⟨k, v⟩ := m
    cases ms with
    | nil =>
      exact ⟨escString k.data ++ '"' :: ':' :: ' ' :: renderValF f' ind v,
        by simp [renderMembersF]⟩
    | cons m' ms' =>
      exact ⟨escString k.data ++ '"' :: ':' :: ' ' ::
          (renderValF f' ind v ++ ',' :: '\n' :: renderMembersF f' ind m' ms'),
        by simp [renderMembersF, List.append_assoc]⟩

/-- A rendered element list begins with its indentation and then a
non-whitespace, non-closing character. -/
theorem renderElemsF_shape (f ind : Nat) (x : JVal) (xs : List JVal)
    (h : renderOkE f x xs = true) :
    ∃ c tail, renderElemsF f ind x xs = spaces ind ++ c :: tail ∧
      isWs c = false ∧ c ≠ ']' ∧ c ≠ '\x7d' := by
  cases f with
  | zero => simp [renderOkE] at h
  | succ f' =>
    cases xs with
    | nil =>
      have hv : renderOkV f' x = true := by simpa [renderOkE] using h
      obtain ⟨c, tail, heq, h1, h2, h3⟩ := renderValF_shape f' ind x hv
      exact ⟨c, tail, by simp [renderElemsF, heq], h1, h2, h3⟩
    | cons y ys =>
      have hv : renderOkV f' x = true := by
        have := h
        simp [renderOkE, Bool.and_eq_true] at this
        exact this.1
      obtain ⟨c, tail, heq, h1, h2, h3⟩ := renderValF_shape f' ind x hv
      exact ⟨c, tail ++ ',' :: '\n' :: renderElemsF f' ind y ys,
        by simp [renderElemsF, heq, List.append_assoc], h1, h2, h3⟩

theorem parseElems_step (pf : Nat) (cs : List Char) :
    parseElems (pf + 1) cs =
      (parseVal pf cs).bind (fun xr =>
        if (skipWs xr.2).head? = some ',' then
          (parseElems pf (skipWs xr.2).tail).map (fun er => (xr.1 :: er.1, er.2))
        else if (skipWs xr.2).head? = some ']' then some ([xr.1], (skipWs xr.2).tail)
        else Option.none) := rfl

theorem parseMembers_step (pf : Nat) (cs : List Char) :
    parseMembers (pf + 1) cs =
      (if (skipWs cs).head? = some '"' then
        (parseStringBody false [] (skipWs cs).tail).bind (fun kr =>
          if (skipWs kr.2).head? = some ':' then
            (parseVal pf (skipWs kr.2).tail).bind (fun vr =>
              if (skipWs vr.2).head? = some ',' then
                (parseMembers pf (skipWs vr.2).tail).map
                  (fun mr => ((kr.1, vr.1) :: mr.1, mr.2))
              else if (skipWs vr.2).head? = some '\x7d' then
                some ([(kr.1, vr.1)], (skipWs vr.2).tail)
              else Option.none)
          else Option.none)
      else Option.none) := rfl

/-- The joint render/parse round-trip, by induction on rendering fuel: a
rendered value parses back to itself with the rest of the input intact;
rendered element and member blocks parse back through their closing
bracket. -/
theorem parse_render (fuel : Nat) :
    (∀ ind j rest pf, renderOkV fuel j = true → fuel ≤ pf →
       notDigitStart rest = true →
       parseVal pf (renderValF fuel ind j ++ rest) = some (j, rest)) ∧
    (∀ ind x xs k rest pf, renderOkE fuel x xs = true → fuel ≤ pf →
       parseElems pf
           (renderElemsF fuel ind x xs ++ '\n' :: (spaces k ++ ']' :: rest)) =
         some (x :: xs, rest)) ∧
    (∀ ind m ms k rest pf, renderOkM fuel m ms = true → fuel ≤ pf →
       parseMembers pf
           (renderMembersF fuel ind m ms ++ '\n' :: (spaces k ++ '\x7d' :: rest)) =
         some (m :: ms, rest)) := by
  induction fuel with
  | zero =>
    refine ⟨?_, ?_, ?_⟩
    · intro _ j _ _ h _ _; simp [renderOkV] at h
    · intro _ x xs _ _ _ h _; simp [renderOkE] at h
    · intro _ m ms _ _ _ h _; simp [renderOkM] at h
  | succ f ih =>
    obtain ⟨ihV, ihE, ihM⟩ := ih
    refine ⟨?_, ?_, ?_⟩
    · -- values
      intro ind j rest pf hok hpf hrest
      obtain ⟨pf, rfl⟩ : ∃ q, pf = q + 1 := ⟨pf - 1, by omega⟩
      cases j with
      | str s =>
        have hin : renderValF (f + 1) ind (.str s) ++ rest =
            '"' :: (escString s.data ++ '"' :: rest) := by
          show ('"' :: (escString s.data ++ ['"'])) ++ rest = _
          simp
        rw [hin, parseVal_quote, parseStringBody_escString]
        simp [String_mk_data]
      | num n =>
        rw [show renderValF (f + 1) ind (.num n) = renderInt n from rfl]
        exact parseVal_renderInt pf n rest hrest
      | bool b =>
        cases b with
        | true =>
          rw [show renderValF (f + 1) ind (.bool true) ++ rest =
                't' :: 'r' :: 'u' :: 'e' :: rest from rfl]
          exact parseVal_true_lit pf rest
        | false =>
          rw [show renderValF (f + 1) ind (.bool false) ++ rest =
                'f' :: 'a' :: 'l' :: 's' :: 'e' :: rest from rfl]
          exact parseVal_false_lit pf rest
      | null =>
        rw [show renderValF (f + 1) ind .null ++ rest =
              'n' :: 'u' :: 'l' :: 'l' :: rest from rfl]
        exact parseVal_null_lit pf rest
      | arr xs =>
        cases xs with
        | nil =>
          rw [show renderValF (f + 1) ind (.arr []) ++ rest =
                '[' :: ']' :: rest from rfl]
          rw [parseVal_lbrack, skipWs_cons_of_not_ws ']' rest rfl]
          simp
        | cons x xs' =>
          have hok' : renderOkE f x xs' = true := by simpa [renderOkV] using hok
          have hin : renderValF (f + 1) ind (.arr (x :: xs')) ++ rest =
              '[' :: ('\n' ::
                (renderElemsF f (ind + 2) x xs' ++
                  '\n' :: (spaces ind ++ ']' :: rest))) := by
            show ('[' :: '\n' ::
                (renderElemsF f (ind + 2) x xs' ++ '\n' :: (spaces ind ++ [']']))) ++
                rest = _
            simp [List.append_assoc]
          obtain ⟨c, tail, heqE, hws, hbr, _⟩ := renderElemsF_shape f (ind + 2) x xs' hok'
          have hskip : skipWs ('\n' ::
              (renderElemsF f (ind + 2) x xs' ++ '\n' :: (spaces ind ++ ']' :: rest))) =
              c :: (tail ++ '\n' :: (spaces ind ++ ']' :: rest)) := by
            rw [skipWs_cons_of_ws '\n' _ rfl, heqE, List.append_assoc, skipWs_spaces,
              List.cons_append, skipWs_cons_of_not_ws c _ hws]
          have hse := ihE (ind + 2) x xs' ind rest pf hok' (by omega)
          rw [heqE, List.append_assoc, parseElems_spaces, List.cons_append] at hse
          rw [hin, parseVal_lbrack, hskip, if_neg (by simp [hbr]), hse]
          rfl
      | obj ms =>
        cases ms with
        | nil =>
          rw [show renderValF (f + 1) ind (.obj []) ++ rest =
                '\x7b' :: '\x7d' :: rest from rfl]
          rw [parseVal_lbrace, skipWs_cons_of_not_ws '\x7d' rest rfl]
          simp
        | cons m ms' =>
          have hok' : renderOkM f m ms' = true := by simpa [renderOkV] using hok
          have hin : renderValF (f + 1) ind (.obj (m :: ms')) ++ rest =
              '\x7b' :: ('\n' ::
                (renderMembersF f (ind + 2) m ms' ++
                  '\n' :: (spaces ind ++ '\x7d' :: rest))) := by
            show ('\x7b' :: '\n' ::
                (renderMembersF f (ind + 2) m ms' ++
                  '\n' :: (spaces ind ++ ['\x7d']))) ++ rest = _
            simp [List.append_assoc]
          obtain ⟨tail, heqM⟩ := renderMembersF_shape f (ind + 2) m ms' hok'
          have hskip : skipWs ('\n' ::
              (renderMembersF f (ind + 2) m ms' ++
                '\n' :: (spaces ind ++ '\x7d' :: rest))) =
              '"' :: (tail ++ '\n' :: (spaces ind ++ '\x7d' :: rest)) := by
            rw [skipWs_cons_of_ws '\n' _ rfl, heqM, List.append_assoc, skipWs_spaces,
              List.cons_append, skipWs_cons_of_not_ws '"' _ rfl]
          have hsm := ihM (ind + 2) m ms' ind rest pf hok' (by omega)
          rw [heqM, List.append_assoc, parseMembers_spaces, List.cons_append] at hsm
          rw [hin, parseVal_lbrace, hskip, if_neg (by simp), hsm]
          rfl
    · -- element lists
      intro ind x xs k rest pf hok hpf
      obtain ⟨pf, rfl⟩ : ∃ q, pf = q + 1 := ⟨pf - 1, by omega⟩
      cases xs with
      | nil =>
        have hv : renderOkV f x = true := by simpa [renderOkE] using hok
        have hpv := ihV ind x ('\n' :: (spaces k ++ ']' :: rest)) pf hv (by omega) rfl
        have hskip : skipWs ('\n' :: (spaces k ++ ']' :: rest)) = ']' :: rest := by
          rw [skipWs_cons_of_ws '\n' _ rfl, skipWs_spaces,
            skipWs_cons_of_not_ws ']' _ rfl]
        rw [show renderElemsF (f + 1) ind x [] = spaces ind ++ renderValF f ind x
              from rfl]
        rw [List.append_assoc, parseElems_spaces, parseElems_step, hpv]
        simp only [Option.some_bind, hskip, List.head?_cons, List.tail_cons]
        simp
      | cons y ys =>
        have hv : renderOkV f x = true := by
          have := hok; simp [renderOkE, Bool.and_eq_true] at this; exact this.1
        have hok' : renderOkE f y ys = true := by
          have := hok; simp [renderOkE, Bool.and_eq_true] at this; exact this.2
        have hpv := ihV ind x
          (',' :: '\n' :: (renderElemsF f ind y ys ++ '\n' :: (spaces k ++ ']' :: rest)))
          pf hv (by omega) rfl
        have hse := ihE ind y ys k rest pf hok' (by omega)
        have hin : renderElemsF (f + 1) ind x (y :: ys) ++
              '\n' :: (spaces k ++ ']' :: rest) =
            spaces ind ++ (renderValF f ind x ++
              ',' :: '\n' ::
                (renderElemsF f ind y ys ++ '\n' :: (spaces k ++ ']' :: rest))) := by
          show (spaces ind ++ (renderValF f ind x ++
              ',' :: '\n' :: renderElemsF f ind y ys)) ++
              '\n' :: (spaces k ++ ']' :: rest) = _
          simp [List.append_assoc]
        rw [hin, parseElems_spaces, parseElems_step, hpv]
        have hskip : skipWs (',' :: '\n' ::
            (renderElemsF f ind y ys ++ '\n' :: (spaces k ++ ']' :: rest))) =
            ',' :: '\n' ::
              (renderElemsF f ind y ys ++ '\n' :: (spaces k ++ ']' :: rest)) :=
          skipWs_cons_of_not_ws ',' _ rfl
        simp only [Option.some_bind, hskip, List.head?_cons, List.tail_cons, if_true]
        rw [parseElems_ws_cons pf '\n' _ rfl, hse]
        rfl
    · -- member lists
      intro ind m ms k rest pf hok hpf
      obtain ⟨pf, rfl⟩ : ∃ q, pf = q + 1 := ⟨pf - 1, by omega⟩
      obtain ⟨kk, v⟩ := m
      cases ms with
      | nil =>
        have hv : renderOkV f v = true := by simpa [renderOkM] using hok
        have hpv := ihV ind v ('\n' :: (spaces k ++ '\x7d' :: rest)) pf hv (by omega) rfl
        have hskip : skipWs ('\n' :: (spaces k ++ '\x7d' :: rest)) = '\x7d' :: rest := by
          rw [skipWs_cons_of_ws '\n' _ rfl, skipWs_spaces,
            skipWs_cons_of_not_ws '\x7d' _ rfl]
        have hin : renderMembersF (f + 1) ind (kk, v) [] ++
              '\n' :: (spaces k ++ '\x7d' :: rest) =
            spaces ind ++ ('"' :: (escString kk.data ++
              '"' :: (':' :: ' ' ::
                (renderValF f ind v ++ '\n' :: (spaces k ++ '\x7d' :: rest))))) := by
          show (spaces ind ++ ('"' :: (escString kk.data ++
              '"' :: ':' :: ' ' :: renderValF f ind v))) ++
              '\n' :: (spaces k ++ '\x7d' :: rest) = _
          simp [List.append_assoc]
        rw [hin, parseMembers_spaces, parseMembers_step,
          skipWs_cons_of_not_ws '"' _ rfl]
        simp only [List.head?_cons, List.tail_cons, if_true]
        rw [parseStringBody_escString]
        simp only [Option.some_bind, List.reverse_nil, List.nil_append, String_mk_data]
        rw [skipWs_cons_of_not_ws ':' _ rfl]
        simp only [List.head?_cons, List.tail_cons, if_true]
        rw [parseVal_ws_cons pf ' ' _ rfl, hpv]
        simp only [Option.some_bind, hskip, List.head?_cons, List.tail_cons]
        simp
      | cons m' ms' =>
        have hv : renderOkV f v = true := by
          have := hok; simp [renderOkM, Bool.and_eq_true] at this; exact this.1
        have hok' : renderOkM f m' ms' = true := by
          have := hok; simp [renderOkM, Bool.and_eq_true] at this; exact this.2
        have hpv := ihV ind v
          (',' :: '\n' ::
            (renderMembersF f ind m' ms' ++ '\n' :: (spaces k ++ '\x7d' :: rest)))
          pf hv (by omega) rfl
        have hsm := ihM ind m' ms' k rest pf hok' (by omega)
        have hin : renderMembersF (f + 1) ind (kk, v) (m' :: ms') ++
              '\n' :: (spaces k ++ '\x7d' :: rest) =
            spaces ind ++ ('"' :: (escString kk.data ++
              '"' :: (':' :: ' ' ::
                (renderValF f ind v ++ ',' :: '\n' ::
                  (renderMembersF f ind m' ms' ++
                    '\n' :: (spaces k ++ '\x7d' :: rest)))))) := by
          show (spaces ind ++
              ('"' :: (escString kk.data ++ '"' :: ':' :: ' ' :: renderValF f ind v)) ++
              ',' :: '\n' :: renderMembersF f ind m' ms') ++
              '\n' :: (spaces k ++ '\x7d' :: rest) = _
          simp [List.append_assoc]
        rw [hin, parseMembers_spaces, parseMembers_step,
          skipWs_cons_of_not_ws '"' _ rfl]
        simp only [List.head?_cons, List.tail_cons, if_true]
        rw [parseStringBody_escString]
        simp only [Option.some_bind, List.reverse_nil, List.nil_append, String_mk_data]
        rw [skipWs_cons_of_not_ws ':' _ rfl]
        simp only [List.head?_cons, List.tail_cons, if_true]
        rw [parseVal_ws_cons pf ' ' _ rfl, hpv]
        simp only [Option.some_bind]
        rw [skipWs_cons_of_not_ws ',' _ rfl]
        simp only [List.head?_cons, List.tail_cons, if_true]
        rw [parseMembers_ws_cons pf '\n' _ rfl, hsm]
        rfl

/-- C1: the dashboard has exactly 5 rows titled Overview, Business
Metrics, HTTP Performance, Error Rates, System Metrics in that order with
4, 2, 2, 2, 2 panels respectively — 12 panels in total — and the emitted
document's `dashboard.rows` shows the same five panel counts. -/
theorem claim1_row_and_panel_counts :
    create_dashboard.rows.map (fun r => (r.title, r.panels.length)) =
      [("Overview", 4), ("Business Metrics", 2), ("HTTP Performance", 2),
       ("Error Rates", 2), ("System Metrics", 2)] ∧
    (allPanels create_dashboard).length = 12 ∧
    (jArr (jGet2 dashboard_json "dashboard" "rows")).map
        (fun rs => rs.map (fun r => ((jArr (jGet r "panels")).getD []).length)) =
      some [4, 2, 2, 2, 2] :=
  ⟨rfl, rfl, rfl⟩

/-- C2: after the `auto_panel_ids` finalization pass, the panels carry, in
row-then-panel order, exactly the identifiers 1 through 12 — every panel
has one, they are pairwise distinct, contiguous, and start at the fixed
base 1. -/
theorem claim2_auto_panel_ids :
    (allPanels create_dashboard).map Panel.id =
      [some 1, some 2, some 3, some 4, some 5, some 6,
       some 7, some 8, some 9, some 10, some 11, some 12] :=
  rfl

/-- C3: the emitted top-level JSON object has exactly the fields
`dashboard`, `overwrite`, `inputs` in that order, with `overwrite` the
boolean true and `inputs` the empty list. -/
theorem claim3_envelope_fields :
    jKeys dashboard_json = ["dashboard", "overwrite", "inputs"] ∧
    jGet dashboard_json "overwrite" = some (.bool true) ∧
    jGet dashboard_json "inputs" = some (.arr []) :=
  ⟨rfl, rfl, rfl⟩

/-- C4: in the emitted document, `dashboard.title` is the literal string
"Booking Service Monitoring" and `dashboard.tags` is the ordered list
["booking-service", "events", "bookings"]. -/
theorem claim4_title_and_tags :
    jGet2 dashboard_json "dashboard" "title" =
      some (.str "Booking Service Monitoring") ∧
    jGet2 dashboard_json "dashboard" "tags" =
      some (.arr [.str "booking-service", .str "events", .str "bookings"]) :=
  ⟨rfl, rfl⟩

/-- C6: round-trip — parsing the emitted document and re-serializing the
parsed value with the same formatting rules (2-space indentation, same key
order, trailing newline) reproduces the document byte for byte. -/
theorem claim6_round_trip :
    (parseJson programOutput).map (fun j => renderVal 0 j ++ ['\n']) =
      some programOutput := by
  have hok : renderOkV renderFuel dashboard_json = true := by decide
  have h := (parse_render renderFuel).1 0 dashboard_json ['\n'] renderFuel hok
    (le_refl _) rfl
  have h2 : parseJson programOutput = some dashboard_json := by
    rw [show programOutput = renderValF renderFuel 0 dashboard_json ++ ['\n']
          from rfl]
    simp only [parseJson, h]
    rfl
  rw [h2]
  rfl

/-- C7: the emitted bytes are exactly the 2-space-indentation rendering of
the envelope followed by a trailing newline: the document opens with a
brace and a newline, its first nested line is indented by two spaces, and
the last byte is a newline. -/
theorem claim7_output_format :
    programOutput = renderVal 0 dashboard_json ++ ['\n'] ∧
    programOutput.take 4 = ['\x7b', '\n', ' ', ' '] ∧
    programOutput.getLast? = some '\n' := by
  refine ⟨rfl, rfl, ?_⟩
  show (renderVal 0 dashboard_json ++ '\n' :: ([] : List Char)).getLast? = some '\n'
  rw [List.getLast?_append_cons]
  rfl

/-- C5: the program is deterministic — its outcome (exit code and output
bytes) is the same under any two environments, since it reads no clock,
randomness, or environment variables. -/
theorem claim5_deterministic (e₁ e₂ : Env) : runProgram e₁ = runProgram e₂ :=
  rfl

/-- C8: every query target of the dashboard has a non-empty query
expression and a non-empty legend label (the label is present on every
target the source constructs). -/
theorem claim8_targets_nonempty :
    (allTargets create_dashboard).all
      (fun t => !(t.expr == "") && !(t.legendFormat == "")) = true :=
  rfl

/-- C9: a serialization failure (an unrepresentable value in the tree)
makes the run exit nonzero with no output written, and the actual
program's run succeeds with exit code 0. -/
theorem claim9_error_exit :
    (∀ v : PyVal, dumps v = Option.none → runWith v = ⟨1, []⟩) ∧
    (runWith dashboard_json_py).exitCode = 0 :=
  ⟨fun _ h => by simp [runWith, h], rfl⟩

/-- Witness for C9 at a concrete unrepresentable value: a non-finite
float fails to serialize and the run exits 1 having written nothing. -/
theorem claim9_error_exit_witness :
    dumps PyVal.nonFiniteFloat = Option.none ∧
    runWith PyVal.nonFiniteFloat = ⟨1, []⟩ :=
  ⟨rfl, claim9_error_exit.1 PyVal.nonFiniteFloat rfl⟩

/-- C10: the dashboard declares exactly one template variable, named
`datasource` of type `datasource`, and all 12 panels reference it through
the `$datasource` substitution token as their data source. -/
theorem claim10_datasource_template :
    create_dashboard.templating =
      Templating.mk [Template.mk "datasource" "Data Source" "datasource" "prometheus"] ∧
    (allPanels create_dashboard).map Panel.dataSource =
      List.replicate 12 "$datasource" :=
  ⟨rfl, rfl⟩

end BookingDashboard
